import Mathlib

set_option maxRecDepth 100000

/-!
Verification of the Shearwater Predator/Petrel dive-log parser
(`src/shearwater_predator_parser.c`).

The development is a shallow embedding of the parser's decoding core:

* byte buffers are `List Nat` (each entry a byte value), reads go through
  `List.getD` with default `0`;
* the one-pass layout-discovery cache (`shearwater_predator_parser_cache`)
  is `cachePass`, built from a fuel-indexed record sweep `cacheSweep`;
* the gas bookkeeping of the sample-replay pass
  (`shearwater_predator_parser_samples_foreach`) is `replayGasSweep`;
  sample emissions whose values are floating point (depth, temperature
  after unit conversion, ppO2, setpoint, CNS, deco, tank pressure) carry
  no control-flow state and are elided, the integer-valued transforms
  (temperature folding, battery state, sample interval, gas-mix indices)
  are embedded exactly;
* machine integers are `Nat`; the C code's `unsigned int` arithmetic on
  the values involved never overflows 2^32 except for the sentinel
  misuse analysed separately, so no masking is required.
-/

namespace Shearwater

/-- Record type tags (`LOG_RECORD_*` in the C source). -/
def LOG_RECORD_DIVE_SAMPLE : Nat := 0x01

def LOG_RECORD_FREEDIVE_SAMPLE : Nat := 0x02

def LOG_RECORD_OPENING_0 : Nat := 0x10

def LOG_RECORD_OPENING_7 : Nat := 0x17

def LOG_RECORD_CLOSING_0 : Nat := 0x20

def LOG_RECORD_CLOSING_7 : Nat := 0x27

def LOG_RECORD_INFO_EVENT : Nat := 0x30

def LOG_RECORD_FINAL : Nat := 0xFF

/-- Block size of the legacy header/footer (`SZ_BLOCK`). -/
def SZ_BLOCK : Nat := 0x80

def SZ_SAMPLE_PREDATOR : Nat := 0x10

def SZ_SAMPLE_PETREL : Nat := 0x20

/-- Status-flag bit: open circuit (`OC`). -/
def OC : Nat := 0x10

/-- Capacity of the gas-mix table (`NGASMIXES`). -/
def NGASMIXES : Nat := 10

/-- Capacity of the descriptive-string table (`MAXSTRINGS`). -/
def MAXSTRINGS : Nat := 32

/-- Number of tracked opening/closing record classes (`NRECORDS`). -/
def NRECORDS : Nat := 7

def PREDATOR : Nat := 2

def PETREL : Nat := 3

/-- The all-ones 32-bit sentinel (`UNDEFINED`). -/
def UNDEFINED : Nat := 0xFFFFFFFF

/-- `array_uint16_be`: big-endian 16-bit read at `offset`. -/
def array_uint16_be (d : List Nat) (offset : Nat) : Nat :=
  d.getD offset 0 * 256 + d.getD (offset + 1) 0

/-- `array_isequal (data + offset, size, v)`: every byte of the region equals `v`. -/
def array_isequal (d : List Nat) (offset size v : Nat) : Bool :=
  (List.range size).all (fun i => d.getD (offset + i) 0 == v)

/-- Result statuses (`dc_status_t` members used by this parser). -/
inductive Status
  | SUCCESS
  | DATAFORMAT
  | NOMEMORY
  | UNSUPPORTED
  deriving DecidableEq, Repr, Inhabited

/-- Dive modes (`dc_divemode_t` members used by this parser). -/
inductive DiveMode
  | OC
  | CCR
  | FREEDIVE
  deriving DecidableEq, Repr, Inhabited

/-- Parser construction parameters: `model`, `petrel`, and the sample-record
size fixed by `shearwater_common_parser_create`. -/
structure Params where
  model : Nat
  petrel : Bool
  samplesize : Nat
  deriving DecidableEq, Repr, Inhabited

/-- `shearwater_common_parser_create`: selects the sample size from the
petrel flag. -/
def shearwater_common_parser_create (model : Nat) (petrel : Bool) : Params :=
  { model := model, petrel := petrel,
    samplesize := if petrel then SZ_SAMPLE_PETREL else SZ_SAMPLE_PREDATOR }

/-- `battery_state`: decode a transmitter battery word into a state bitmask.
Values whose top 12 bits are all ones are "no comms" codes and map to 0;
a state nibble above 2 also maps to 0; otherwise the result is
`1 <<< state`. -/
def battery_state (d : List Nat) (offset : Nat) : Nat :=
  let pressure := array_uint16_be d offset
  if pressure &&& 0xFFF0 = 0xFFF0 then 0
  else
    let state := pressure >>> 12
    if state > 2 then 0 else 1 <<< state

/-- The 8-entry battery-state string table inside `add_battery_info`. -/
def battery_states : List String :=
  ["", "normal", "critical", "critical", "warning", "warning", "critical", "critical"]

/-- `add_battery_info`: the descriptive string published for an accumulated
battery-state bitmask, or `none` when no string is added (the C function
only calls `add_string` for `1 <= state && state <= 7`). -/
def add_battery_info (state : Nat) : Option String :=
  if 1 ≤ state ∧ state ≤ 7 then some (battery_states.getD state "") else none

/-- Signed-char interpretation of a raw byte. -/
def signedByte (b : Nat) : Int :=
  if b < 128 then (b : Int) else (b : Int) - 256

/-- The temperature decoding of a dive-sample record before unit
conversion: negative signed values are folded by `+102` and then clamped
so that a positive post-fold value becomes `0`. -/
def sampleTemperature (b : Nat) : Int :=
  let temperature := signedByte b
  if temperature < 0 then
    let t := temperature + 102
    if t > 0 then 0 else t
  else temperature

/-- `shearwater_predator_find_gasmix`: index of the first entry matching
`(o2, he)`, or the table length when the pair is absent. -/
def shearwater_predator_find_gasmix : List (Nat × Nat) → Nat → Nat → Nat
  | [], _, _ => 0
  | m :: rest, o2, he =>
      if o2 = m.1 ∧ he = m.2 then 0
      else shearwater_predator_find_gasmix rest o2 he + 1

/-- `T` is `l` extended on the right (the gas table and the assignment
list only ever grow by appending). -/
def TableExtends {α : Type} (l T : List α) : Prop := ∃ r, T = l ++ r

/-- State of the single discovery sweep inside
`shearwater_predator_parser_cache`.  `opening`, `closing` and `final` are
the parser fields written during the sweep; `gasmixes` merges the C
arrays `oxygen[]`/`helium[]` with their count `ngasmixes`;
`assignments` is verification instrumentation recording each gas-change
`(pair, idx)` resolved at lines 528-550 of the source (the C keeps `idx`
in a loop-local variable). -/
structure CacheSweep where
  opening : List Nat
  closing : List Nat
  final : Nat
  mode : DiveMode
  gasmixes : List (Nat × Nat)
  o2_previous : Nat
  he_previous : Nat
  t1_battery : Nat
  t2_battery : Nat
  assignments : List ((Nat × Nat) × Nat)
  deriving Repr, Inhabited

/-- The gas-change bookkeeping of a dive-sample record (cache pass,
lines 526-550): when `(o2, he)` differs from the previous pair, look it
up; absent pairs are appended, unless the table already holds
`NGASMIXES` entries, which is the `DC_STATUS_NOMEMORY` failure
(`none`).  Returns the new `(gasmixes, assignments, o2_previous,
he_previous)`. -/
def gasStep (mixes : List (Nat × Nat)) (asg : List ((Nat × Nat) × Nat))
    (o2p hep o2 he : Nat) :
    Option (List (Nat × Nat) × List ((Nat × Nat) × Nat) × Nat × Nat) :=
  if o2 ≠ o2p ∨ he ≠ hep then
    if mixes.length ≤ shearwater_predator_find_gasmix mixes o2 he then
      if NGASMIXES ≤ shearwater_predator_find_gasmix mixes o2 he then none
      else
        some (mixes ++ [(o2, he)],
          asg ++ [((o2, he), shearwater_predator_find_gasmix mixes o2 he)], o2, he)
    else
      some (mixes,
        asg ++ [((o2, he), shearwater_predator_find_gasmix mixes o2 he)], o2, he)
  else some (mixes, asg, o2p, hep)

/-- State update for a dive-sample record in the cache sweep: the
closed-circuit flag test, the gas-change result `g`, and the two
transmitter battery-state accumulations (T1 at byte 27, T2 at byte 19,
both shifted by `pnf`). -/
def diveUpdate (d : List Nat) (pnf offset : Nat) (st : CacheSweep)
    (g : List (Nat × Nat) × List ((Nat × Nat) × Nat) × Nat × Nat) : CacheSweep :=
  { st with
    mode := if (d.getD (offset + 11 + pnf) 0) &&& OC = 0 then DiveMode.CCR else st.mode
    gasmixes := g.1
    assignments := g.2.1
    o2_previous := g.2.2.1
    he_previous := g.2.2.2
    t1_battery := st.t1_battery ||| battery_state d (offset + 27 + pnf)
    t2_battery := st.t2_battery ||| battery_state d (offset + 19 + pnf) }

/-- One record of the cache sweep (the body of the `while` loop at lines
508-571): skip all-zero records; classify by the type byte (PNF) or as a
dive sample (legacy); dive samples update mode, gas table and battery
bitmasks; freedive samples force freedive mode; opening/closing records
store their offset into the slot of their class (note the C writes
`opening[7]`/`closing[7]` for classes `0x17`/`0x27`, one past the
7-entry arrays — an out-of-bounds write; `List.set` at index 7 models it
as a no-op on the tracked slots); the final record stores its offset.
`recordType` is the classification `pnf ? data[offset] :
LOG_RECORD_DIVE_SAMPLE` (line 516). -/
def recordType (d : List Nat) (pnf offset : Nat) : Nat :=
  if pnf = 1 then d.getD offset 0 else LOG_RECORD_DIVE_SAMPLE

def cacheStep (d : List Nat) (pnf ss offset : Nat) (st : CacheSweep) :
    Option CacheSweep :=
  if array_isequal d offset ss 0x00 then some st
  else if recordType d pnf offset = LOG_RECORD_DIVE_SAMPLE then
    (gasStep st.gasmixes st.assignments st.o2_previous st.he_previous
        (d.getD (offset + 7 + pnf) 0) (d.getD (offset + 8 + pnf) 0)).map
      (diveUpdate d pnf offset st)
  else if recordType d pnf offset = LOG_RECORD_FREEDIVE_SAMPLE then
    some { st with mode := DiveMode.FREEDIVE }
  else if LOG_RECORD_OPENING_0 ≤ recordType d pnf offset ∧
      recordType d pnf offset ≤ LOG_RECORD_OPENING_7 then
    some { st with
      opening := st.opening.set (recordType d pnf offset - LOG_RECORD_OPENING_0) offset }
  else if LOG_RECORD_CLOSING_0 ≤ recordType d pnf offset ∧
      recordType d pnf offset ≤ LOG_RECORD_CLOSING_7 then
    some { st with
      closing := st.closing.set (recordType d pnf offset - LOG_RECORD_CLOSING_0) offset }
  else if recordType d pnf offset = LOG_RECORD_FINAL then
    some { st with final := offset }
  else some st

/-- The record sweep of the cache pass, fuel-indexed.  The C loop `while
(offset + samplesize <= length)` advances by `samplesize` each
iteration; any fuel at least the iteration count gives the loop's
result, and the top-level pass passes `size + 1`. -/
def cacheSweep (d : List Nat) (pnf ss length : Nat) :
    Nat → Nat → CacheSweep → Option CacheSweep
  | 0, _, st => some st
  | fuel + 1, offset, st =>
      if offset + ss ≤ length then
        match cacheStep d pnf ss offset st with
        | none => none
        | some st2 => cacheSweep d pnf ss length fuel (offset + ss) st2
      else some st

/-- PNF detection (line 461): for a petrel-capable parser the buffer is
PNF when its first big-endian word is not `0xFFFF`.  The value is used
as the numeric record-offset shift, exactly as the C uses `pnf`. -/
def pnfOf (p : Params) (d : List Nat) : Nat :=
  if p.petrel ∧ array_uint16_be d 0 ≠ 0xFFFF then 1 else 0

/-- Header extent: one 128-byte block for the legacy format, none under
PNF. -/
def headersizeOf (p : Params) (d : List Nat) : Nat :=
  if pnfOf p d = 1 then 0 else SZ_BLOCK

/-- Footer extent: none under PNF; one legacy block, grown by a second
block for petrel-capable parsers or when the trailing block carries the
`0xFFFD` marker (lines 462-481). -/
def footersizeOf (p : Params) (d : List Nat) : Nat :=
  if pnfOf p d = 1 then 0
  else if p.petrel ∨ array_uint16_be d (d.length - SZ_BLOCK) = 0xFFFD then
    2 * SZ_BLOCK
  else SZ_BLOCK

/-- Initial `final` offset: set to the last legacy block when the footer
was grown, `UNDEFINED` otherwise (line 481). -/
def finalInit (p : Params) (d : List Nat) : Nat :=
  if pnfOf p d = 0 ∧ footersizeOf p d = 2 * SZ_BLOCK then d.length - SZ_BLOCK
  else UNDEFINED

/-- Sweep state before the record loop: under PNF all record offsets are
`UNDEFINED`; the legacy format pre-assigns every opening slot 0 and
every closing slot the footer start (lines 488-491). -/
def initState (p : Params) (d : List Nat) : CacheSweep :=
  { opening :=
      if pnfOf p d = 1 then List.replicate NRECORDS UNDEFINED
      else List.replicate NRECORDS 0
    closing :=
      if pnfOf p d = 1 then List.replicate NRECORDS UNDEFINED
      else List.replicate NRECORDS (d.length - footersizeOf p d)
    final := finalInit p d
    mode := DiveMode.OC
    gasmixes := []
    o2_previous := 0
    he_previous := 0
    t1_battery := 0
    t2_battery := 0
    assignments := [] }

/-- The required-record check after the sweep (lines 573-579): any of
the first `NRECORDS - 2` opening or closing classes still `UNDEFINED`
is a data-format failure.  Classes 5 and 6 are not checked. -/
def requiredMissing (st : CacheSweep) : Bool :=
  (List.range (NRECORDS - 2)).any fun i =>
    st.opening.getD i 0 == UNDEFINED || st.closing.getD i 0 == UNDEFINED

/-- `add_string`: the descriptive-string table fills slots in order and
silently drops writes beyond `MAXSTRINGS`.  Strings are modelled by
their labels (`desc`); the formatted values are irrelevant to every
claim and are elided. -/
def addString (strings : List String) (desc : String) : List String :=
  if strings.length < MAXSTRINGS then strings ++ [desc] else strings

/-- The cached layout published by a successful cache pass (the cached
fields of `shearwater_predator_parser_t`).  `assignments` is the
verification instrumentation from `CacheSweep`; `calibration` holds the
three raw 16-bit calibration words (the C scales them into doubles,
which no claim observes). -/
structure Layout where
  pnf : Nat
  logversion : Nat
  headersize : Nat
  footersize : Nat
  opening : List Nat
  closing : List Nat
  final : Nat
  gasmixes : List (Nat × Nat)
  calibrated : Nat
  calibration : List Nat
  mode : DiveMode
  units : Nat
  atmospheric : Nat
  density : Nat
  strings : List String
  assignments : List ((Nat × Nat) × Nat)
  deriving Repr, Inhabited

/-- Layout assembly after a successful sweep (lines 581-654): read
`logversion` relative to opening-class-4, zero the battery bitmasks for
`logversion < 7`, read the calibration words relative to
opening-class-3, cache the derived fields, and populate the descriptive
strings in the C execution order. -/
def mkLayout (p : Params) (d : List Nat) (st : CacheSweep) : Layout :=
  let pnf := pnfOf p d
  let logversion := d.getD (st.opening.getD 4 0 + (if pnf = 1 then 16 else 127)) 0
  let t1 := if logversion < 7 then 0 else st.t1_battery
  let t2 := if logversion < 7 then 0 else st.t2_battery
  let base := st.opening.getD 3 0 + (if pnf = 1 then 6 else 86)
  let s := addString [] "Logversion"
  let s := if p.model = PREDATOR then
      addString (addString (addString s "O2 Sensor Calibration 0")
        "O2 Sensor Calibration 1") "O2 Sensor Calibration 2"
    else s
  let s := if st.mode ≠ DiveMode.OC then addString s "PPO2 source" else s
  let s := addString s "Serial"
  let s := addString s "FW Version"
  let s := addString s "Deco model"
  let s := if logversion < 7 then s else addString s "Battery type"
  let s := addString s "Battery at end"
  let s := match add_battery_info t1 with
    | some _ => addString s "T1 battery"
    | none => s
  let s := match add_battery_info t2 with
    | some _ => addString s "T2 battery"
    | none => s
  { pnf := pnf
    logversion := logversion
    headersize := headersizeOf p d
    footersize := footersizeOf p d
    opening := st.opening
    closing := st.closing
    final := st.final
    gasmixes := st.gasmixes
    calibrated := d.getD base 0
    calibration :=
      [array_uint16_be d (base + 1), array_uint16_be d (base + 3),
        array_uint16_be d (base + 5)]
    mode := st.mode
    units := d.getD (st.opening.getD 0 0 + 8) 0
    atmospheric := array_uint16_be d (st.opening.getD 1 0 + (if pnf = 1 then 16 else 47))
    density := array_uint16_be d (st.opening.getD 3 0 + (if pnf = 1 then 3 else 83))
    strings := s
    assignments := st.assignments }

/-- `shearwater_predator_parser_cache`: reject buffers shorter than 2
bytes; reject legacy buffers shorter than header plus footer; run the
record sweep (gas-table overflow is `DC_STATUS_NOMEMORY`); require the
first five opening and closing classes; then publish the layout. -/
def cachePass (p : Params) (d : List Nat) : Except Status Layout :=
  if d.length < 2 then .error Status.DATAFORMAT
  else if pnfOf p d = 0 ∧ d.length < headersizeOf p d + footersizeOf p d then
    .error Status.DATAFORMAT
  else
    match cacheSweep d (pnfOf p d) p.samplesize (d.length - footersizeOf p d)
        (d.length + 1) (headersizeOf p d) (initState p d) with
    | none => .error Status.NOMEMORY
    | some st =>
        if requiredMissing st then .error Status.DATAFORMAT
        else .ok (mkLayout p d st)

/-- The sample-interval computation at the top of
`shearwater_predator_parser_samples_foreach` (lines 747-756): 10 seconds
by default; under PNF with `logversion >= 9` a 16-bit big-endian
millisecond value at `opening[5] + 23`, required to be a multiple of
1000 and converted to seconds. -/
def sampleInterval (d : List Nat) (L : Layout) : Except Status Nat :=
  if L.pnf = 1 ∧ 9 ≤ L.logversion then
    let interval := array_uint16_be d (L.opening.getD 5 0 + 23)
    if interval % 1000 ≠ 0 then .error Status.DATAFORMAT
    else .ok (interval / 1000)
  else .ok 10

/-- The gas-change bookkeeping of the replay sweep (lines 761-978
restricted to the `DC_SAMPLE_GASMIX` logic; the other per-sample
emissions are floating point values with no effect on control flow or
on the gas state).  The walk stops at a PNF final record, skips PNF
info-event records and PNF records that are not dive samples, skips
all-zero records, and on a gas change resolves the pair in the cached
table `mixes` — an unregistered pair is the `DC_STATUS_DATAFORMAT`
failure at lines 882-886.  Returns the emitted gas-mix indices. -/
def replayGasSweep (d : List Nat) (pnf ss length : Nat) (mixes : List (Nat × Nat)) :
    Nat → Nat → Nat → Nat → Except Status (List Nat)
  | 0, _, _, _ => .ok []
  | fuel + 1, offset, o2p, hep =>
      if offset + ss ≤ length then
        if pnf = 1 ∧ d.getD offset 0 = LOG_RECORD_FINAL ∧
            d.getD (offset + 1) 0 = 0xFD then .ok []
        else if pnf = 1 ∧ d.getD offset 0 = LOG_RECORD_INFO_EVENT then
          replayGasSweep d pnf ss length mixes fuel (offset + ss) o2p hep
        else if pnf = 1 ∧ d.getD offset 0 ≠ LOG_RECORD_DIVE_SAMPLE then
          replayGasSweep d pnf ss length mixes fuel (offset + ss) o2p hep
        else if array_isequal d offset ss 0x00 then
          replayGasSweep d pnf ss length mixes fuel (offset + ss) o2p hep
        else if d.getD (offset + pnf + 7) 0 ≠ o2p ∨ d.getD (offset + pnf + 8) 0 ≠ hep then
          if mixes.length ≤ shearwater_predator_find_gasmix mixes
              (d.getD (offset + pnf + 7) 0) (d.getD (offset + pnf + 8) 0) then
            .error Status.DATAFORMAT
          else
            match replayGasSweep d pnf ss length mixes fuel (offset + ss)
                (d.getD (offset + pnf + 7) 0) (d.getD (offset + pnf + 8) 0) with
            | .ok rest =>
                .ok (shearwater_predator_find_gasmix mixes
                  (d.getD (offset + pnf + 7) 0) (d.getD (offset + pnf + 8) 0) :: rest)
            | .error e => .error e
        else replayGasSweep d pnf ss length mixes fuel (offset + ss) o2p hep
      else .ok []

/-- The sequence of gas-change pairs the replay sweep encounters, in
order: the same walk as `replayGasSweep`, recording each changed
`(o2, he)` pair instead of resolving it. -/
def replayPairs (d : List Nat) (pnf ss length : Nat) :
    Nat → Nat → Nat → Nat → List (Nat × Nat)
  | 0, _, _, _ => []
  | fuel + 1, offset, o2p, hep =>
      if offset + ss ≤ length then
        if pnf = 1 ∧ d.getD offset 0 = LOG_RECORD_FINAL ∧
            d.getD (offset + 1) 0 = 0xFD then []
        else if pnf = 1 ∧ d.getD offset 0 = LOG_RECORD_INFO_EVENT then
          replayPairs d pnf ss length fuel (offset + ss) o2p hep
        else if pnf = 1 ∧ d.getD offset 0 ≠ LOG_RECORD_DIVE_SAMPLE then
          replayPairs d pnf ss length fuel (offset + ss) o2p hep
        else if array_isequal d offset ss 0x00 then
          replayPairs d pnf ss length fuel (offset + ss) o2p hep
        else if d.getD (offset + pnf + 7) 0 ≠ o2p ∨ d.getD (offset + pnf + 8) 0 ≠ hep then
          (d.getD (offset + pnf + 7) 0, d.getD (offset + pnf + 8) 0) ::
            replayPairs d pnf ss length fuel (offset + ss)
              (d.getD (offset + pnf + 7) 0) (d.getD (offset + pnf + 8) 0)
        else replayPairs d pnf ss length fuel (offset + ss) o2p hep
      else []

/-- The `(offset, type)` sequence of non-empty records seen by the cache
sweep, in order (the classification of lines 510-516). -/
def recordsIn (d : List Nat) (pnf ss length : Nat) :
    Nat → Nat → List (Nat × Nat)
  | 0, _ => []
  | fuel + 1, offset =>
      if offset + ss ≤ length then
        if array_isequal d offset ss 0x00 then
          recordsIn d pnf ss length fuel (offset + ss)
        else
          (offset, recordType d pnf offset) ::
            recordsIn d pnf ss length fuel (offset + ss)
      else []

/-- Offset of the last record with type `t` in a record sequence,
defaulting to `dflt` when none occurs. -/
def lastClassOffset (recs : List (Nat × Nat)) (t dflt : Nat) : Nat :=
  match recs with
  | [] => dflt
  | r :: rest => lastClassOffset rest t (if r.2 = t then r.1 else dflt)

/-- The dive-mode aggregation over a record sequence: a dive-sample
record with the `OC` status bit clear sets closed-circuit, a freedive
record sets freedive, every other record leaves the mode unchanged
(the per-record updates at lines 518-558). -/
def modeFold (d : List Nat) (pnf : Nat) : List (Nat × Nat) → DiveMode → DiveMode
  | [], m => m
  | r :: rest, m =>
      modeFold d pnf rest
        (if r.2 = LOG_RECORD_DIVE_SAMPLE then
          (if (d.getD (r.1 + 11 + pnf) 0) &&& OC = 0 then DiveMode.CCR else m)
        else if r.2 = LOG_RECORD_FREEDIVE_SAMPLE then DiveMode.FREEDIVE
        else m)

/-- The field kinds of `dc_field_type_t` reaching
`shearwater_predator_parser_get_field`; `OTHER n` stands for any kind
not handled by a dedicated case (the `default` branch). -/
inductive FieldType
  | DIVETIME
  | MAXDEPTH
  | GASMIX_COUNT
  | GASMIX
  | SALINITY
  | ATMOSPHERIC
  | DIVEMODE
  | STRING
  | OTHER : Nat → FieldType
  deriving DecidableEq, Repr

/-- `shearwater_predator_parser_get_field` (lines 659-727), modelled by
its status: the cache pass runs first and its failure is returned; with
a null `value` pointer the whole `switch` is skipped and the call
succeeds; with a non-null pointer every handled kind succeeds (the
written values are unit-converted doubles or cached integers, elided
here), a string index succeeds exactly when the slot was written, and
an unhandled kind is `DC_STATUS_UNSUPPORTED`. -/
def shearwater_predator_parser_get_field (p : Params) (d : List Nat)
    (type : FieldType) (flags : Nat) (valueNonNull : Bool) : Status :=
  match cachePass p d with
  | .error e => e
  | .ok L =>
      if valueNonNull then
        match type with
        | .DIVETIME => Status.SUCCESS
        | .MAXDEPTH => Status.SUCCESS
        | .GASMIX_COUNT => Status.SUCCESS
        | .GASMIX => Status.SUCCESS
        | .SALINITY => Status.SUCCESS
        | .ATMOSPHERIC => Status.SUCCESS
        | .DIVEMODE => Status.SUCCESS
        | .STRING =>
            if flags < MAXSTRINGS ∧ flags < L.strings.length then Status.SUCCESS
            else Status.UNSUPPORTED
        | .OTHER _ => Status.UNSUPPORTED
      else Status.SUCCESS

/-- Pad a record to the 32-byte petrel record size. -/
def pad32 (l : List Nat) : List Nat := l ++ List.replicate (32 - l.length) 0

/-- A PNF opening record of class `i`. -/
def openingRec (i : Nat) : List Nat := pad32 [LOG_RECORD_OPENING_0 + i]

/-- A PNF opening-class-4 record carrying the log version at byte 16. -/
def openingRec4 (lv : Nat) : List Nat :=
  pad32 ([LOG_RECORD_OPENING_0 + 4] ++ List.replicate 15 0 ++ [lv])

/-- A PNF closing record of class `i`. -/
def closingRec (i : Nat) : List Nat := pad32 [LOG_RECORD_CLOSING_0 + i]

/-- A PNF dive-sample record with the given gas pair and status byte. -/
def diveRec (o2 he status : Nat) : List Nat :=
  pad32 ([LOG_RECORD_DIVE_SAMPLE] ++ List.replicate 7 0 ++ [o2, he, 0, 0, status])

/-- A PNF freedive-sample record. -/
def freediveRec : List Nat := pad32 [LOG_RECORD_FREEDIVE_SAMPLE, 1]

/-- A petrel parser instance. -/
def petrelParams : Params := shearwater_common_parser_create PETREL true

/-- The layout published by a successful cache pass (`default` when the
pass failed). -/
def layoutOf (r : Except Status Layout) : Layout := r.toOption.getD default

/-- PNF buffer with two dive samples carrying two distinct gas pairs. -/
def bufC1 : List Nat :=
  openingRec 0 ++ openingRec 1 ++ openingRec 2 ++ openingRec 3 ++ openingRec4 6 ++
    diveRec 21 0 OC ++ diveRec 32 0 OC ++
    closingRec 0 ++ closingRec 1 ++ closingRec 2 ++ closingRec 3 ++ closingRec 4

def LC1 : Layout := layoutOf (cachePass petrelParams bufC1)

/-- PNF buffer with log version 9 and no opening-class-5 record: the
cache pass succeeds, yet leaves `opening[5]` at the `UNDEFINED`
sentinel that the replay pass then uses in the sample-interval read. -/
def bufC2 : List Nat :=
  openingRec 0 ++ openingRec 1 ++ openingRec 2 ++ openingRec 3 ++ openingRec4 9 ++
    closingRec 0 ++ closingRec 1 ++ closingRec 2 ++ closingRec 3 ++ closingRec 4

def LC2 : Layout := layoutOf (cachePass petrelParams bufC2)

/-- PNF buffer whose dive samples carry 11 distinct gas pairs. -/
def bufC3 : List Nat :=
  diveRec 1 0 OC ++ diveRec 2 0 OC ++ diveRec 3 0 OC ++ diveRec 4 0 OC ++
    diveRec 5 0 OC ++ diveRec 6 0 OC ++ diveRec 7 0 OC ++ diveRec 8 0 OC ++
    diveRec 9 0 OC ++ diveRec 10 0 OC ++ diveRec 11 0 OC

/-- PNF buffer containing two opening-class-0 records, at offsets 0 and
160. -/
def bufC7 : List Nat :=
  openingRec 0 ++ openingRec 1 ++ openingRec 2 ++ openingRec 3 ++ openingRec4 6 ++
    openingRec 0 ++
    closingRec 0 ++ closingRec 1 ++ closingRec 2 ++ closingRec 3 ++ closingRec 4

def LC7 : Layout := layoutOf (cachePass petrelParams bufC7)

/-- PNF buffer with a freedive record at offset 160 followed by a
closed-circuit dive sample at offset 192. -/
def bufC8 : List Nat :=
  openingRec 0 ++ openingRec 1 ++ openingRec 2 ++ openingRec 3 ++ openingRec4 6 ++
    freediveRec ++ diveRec 0 0 0 ++
    closingRec 0 ++ closingRec 1 ++ closingRec 2 ++ closingRec 3 ++ closingRec 4

def LC8 : Layout := layoutOf (cachePass petrelParams bufC8)

/-- A buffer whose bytes 23-24 hold the big-endian value 2000. -/
def dMs2000 : List Nat := List.replicate 23 0 ++ [0x07, 0xD0]

/-- A buffer whose bytes 23-24 hold the big-endian value 1500. -/
def dMs1500 : List Nat := List.replicate 23 0 ++ [0x05, 0xDC]

/-- A PNF layout with log version 9 and all opening offsets 0, for
exercising the sample-interval computation. -/
def LIntervalW : Layout :=
  { (default : Layout) with pnf := 1, logversion := 9, opening := List.replicate 7 0 }

/-- The final sweep state on `bufC1`. -/
def stC1 : CacheSweep :=
  (cacheSweep bufC1 1 32 384 385 0 (initState petrelParams bufC1)).getD default

/-- A full gas table with ten distinct pairs and previous pair (10, 0),
for exercising the capacity failure. -/
def stFull : CacheSweep :=
  { (default : CacheSweep) with
    gasmixes := [(1, 0), (2, 0), (3, 0), (4, 0), (5, 0), (6, 0), (7, 0), (8, 0),
      (9, 0), (10, 0)]
    o2_previous := 10
    he_previous := 0 }

theorem find_gasmix_le (l : List (Nat × Nat)) (o2 he : Nat) :
    shearwater_predator_find_gasmix l o2 he ≤ l.length := by
  induction l with
  | nil => simp [shearwater_predator_find_gasmix]
  | cons m rest ih =>
      simp only [shearwater_predator_find_gasmix, List.length_cons]
      split
      · exact Nat.zero_le _
      · omega

theorem find_gasmix_lt_iff (l : List (Nat × Nat)) (o2 he : Nat) :
    shearwater_predator_find_gasmix l o2 he < l.length ↔ (o2, he) ∈ l := by
  induction l with
  | nil => simp [shearwater_predator_find_gasmix]
  | cons m rest ih =>
      obtain ⟨mo, mh⟩ := m
      simp only [shearwater_predator_find_gasmix, List.length_cons, List.mem_cons]
      by_cases hm : o2 = mo ∧ he = mh
      · obtain ⟨rfl, rfl⟩ := hm
        simp
      · rw [if_neg (by simpa using hm)]
        constructor
        · intro hlt
          right
          exact ih.mp (by omega)
        · intro hmem
          rcases hmem with hm2 | hr
          · simp only [Prod.mk.injEq] at hm2
            exact absurd hm2 hm
          · have := ih.mpr hr
            omega

theorem find_gasmix_append_of_lt (l r : List (Nat × Nat)) (o2 he : Nat)
    (h : shearwater_predator_find_gasmix l o2 he < l.length) :
    shearwater_predator_find_gasmix (l ++ r) o2 he =
      shearwater_predator_find_gasmix l o2 he := by
  induction l with
  | nil => simp [shearwater_predator_find_gasmix] at h
  | cons m rest ih =>
      rw [List.cons_append]
      simp only [shearwater_predator_find_gasmix, List.length_cons] at *
      split
      · rfl
      · rename_i hm
        rw [if_neg hm] at h
        rw [ih (by omega)]

theorem find_gasmix_append_self (l r : List (Nat × Nat)) (o2 he : Nat)
    (h : shearwater_predator_find_gasmix l o2 he = l.length) :
    shearwater_predator_find_gasmix (l ++ (o2, he) :: r) o2 he = l.length := by
  induction l with
  | nil => simp [shearwater_predator_find_gasmix]
  | cons m rest ih =>
      rw [List.cons_append]
      simp only [shearwater_predator_find_gasmix, List.length_cons] at *
      split
      · rename_i hm
        rw [if_pos hm] at h
        omega
      · rename_i hm
        rw [if_neg hm] at h
        rw [ih (by omega)]

theorem tableExtends_refl {α : Type} (l : List α) : TableExtends l l :=
  ⟨[], by simp⟩

theorem tableExtends_trans {α : Type} {a b c : List α}
    (h1 : TableExtends a b) (h2 : TableExtends b c) : TableExtends a c := by
  obtain ⟨r1, rfl⟩ := h1
  obtain ⟨r2, rfl⟩ := h2
  exact ⟨r1 ++ r2, by simp⟩

theorem tableExtends_append {α : Type} (l r : List α) : TableExtends l (l ++ r) :=
  ⟨r, rfl⟩

theorem tableExtends_length {α : Type} {l T : List α}
    (h : TableExtends l T) : l.length ≤ T.length := by
  obtain ⟨r, rfl⟩ := h
  simp

theorem tableExtends_mem {α : Type} {l T : List α} {a : α}
    (h : TableExtends l T) (ha : a ∈ l) : a ∈ T := by
  obtain ⟨r, rfl⟩ := h
  exact List.mem_append_left _ ha

theorem find_gasmix_extends_of_lt {l T : List (Nat × Nat)} {o2 he : Nat}
    (hext : TableExtends l T)
    (h : shearwater_predator_find_gasmix l o2 he < l.length) :
    shearwater_predator_find_gasmix T o2 he =
      shearwater_predator_find_gasmix l o2 he := by
  obtain ⟨r, rfl⟩ := hext
  exact find_gasmix_append_of_lt l r o2 he h

theorem find_gasmix_extends_insert {l T : List (Nat × Nat)} {o2 he : Nat}
    (hext : TableExtends (l ++ [(o2, he)]) T)
    (h : shearwater_predator_find_gasmix l o2 he = l.length) :
    shearwater_predator_find_gasmix T o2 he = l.length := by
  obtain ⟨r, rfl⟩ := hext
  rw [List.append_assoc, List.singleton_append]
  exact find_gasmix_append_self l r o2 he h

theorem battery_state_cases (d : List Nat) (offset : Nat) :
    battery_state d offset = 0 ∨ battery_state d offset = 1 ∨
      battery_state d offset = 2 ∨ battery_state d offset = 4 := by
  unfold battery_state
  dsimp only
  split
  · left; rfl
  · split
    · left; rfl
    · rename_i h2
      have h3 : array_uint16_be d offset >>> 12 = 0 ∨
          array_uint16_be d offset >>> 12 = 1 ∨
          array_uint16_be d offset >>> 12 = 2 := by omega
      rcases h3 with h3 | h3 | h3
      · rw [h3]; right; left; rfl
      · rw [h3]; right; right; left; rfl
      · rw [h3]; right; right; right; rfl

theorem battery_state_lt (d : List Nat) (offset : Nat) :
    battery_state d offset < 8 := by
  rcases battery_state_cases d offset with h | h | h | h <;> omega

theorem or_lt_eight : ∀ a, a < 8 → ∀ b, b < 8 → a ||| b < 8 := by decide

theorem cacheStep_battery_lt {d : List Nat} {pnf ss offset : Nat}
    {st st2 : CacheSweep} (h : cacheStep d pnf ss offset st = some st2)
    (h1 : st.t1_battery < 8) (h2 : st.t2_battery < 8) :
    st2.t1_battery < 8 ∧ st2.t2_battery < 8 := by
  unfold cacheStep at h
  split at h
  · cases h; exact ⟨h1, h2⟩
  · split at h
    · obtain ⟨g, hg, hst⟩ := Option.map_eq_some'.mp h
      subst hst
      refine ⟨?_, ?_⟩
      · exact or_lt_eight _ h1 _ (battery_state_lt d (offset + 27 + pnf))
      · exact or_lt_eight _ h2 _ (battery_state_lt d (offset + 19 + pnf))
    · split at h
      · cases h; exact ⟨h1, h2⟩
      · split at h
        · cases h; exact ⟨h1, h2⟩
        · split at h
          · cases h; exact ⟨h1, h2⟩
          · split at h
            · cases h; exact ⟨h1, h2⟩
            · cases h; exact ⟨h1, h2⟩

theorem cacheSweep_battery_lt (d : List Nat) (pnf ss length : Nat) :
    ∀ fuel offset st st',
      cacheSweep d pnf ss length fuel offset st = some st' →
      st.t1_battery < 8 → st.t2_battery < 8 →
      st'.t1_battery < 8 ∧ st'.t2_battery < 8 := by
  intro fuel
  induction fuel with
  | zero =>
      intro offset st st' h h1 h2
      exact (Option.some.inj h) ▸ ⟨h1, h2⟩
  | succ fuel ih =>
      intro offset st st' h h1 h2
      simp only [cacheSweep] at h
      split at h
      · cases hc : cacheStep d pnf ss offset st with
        | none => rw [hc] at h; exact Option.noConfusion h
        | some st2 =>
            rw [hc] at h
            have hb := cacheStep_battery_lt hc h1 h2
            exact ih (offset + ss) st2 st' h hb.1 hb.2
      · exact (Option.some.inj h) ▸ ⟨h1, h2⟩

/-- Claim C10: `battery_state` only ever returns 0, 1, 2 or 4 (special
codes with the top 12 bits all ones, and state nibbles above 2, map to
0); hence the OR-accumulated transmitter bitmasks stay below 8 across
the whole cache sweep, and every state in 0..7 indexes the 8-entry
battery-state string table in bounds. -/
theorem battery_state_range :
    (∀ d offset, battery_state d offset = 0 ∨ battery_state d offset = 1 ∨
      battery_state d offset = 2 ∨ battery_state d offset = 4) ∧
    (∀ d pnf ss length fuel offset st st',
      cacheSweep d pnf ss length fuel offset st = some st' →
      st.t1_battery < 8 → st.t2_battery < 8 →
      st'.t1_battery < 8 ∧ st'.t2_battery < 8) ∧
    (∀ state, state ≤ 7 → state < battery_states.length) := by
  refine ⟨battery_state_cases, ?_, by decide⟩
  intro d pnf ss length fuel offset st st' h h1 h2
  exact cacheSweep_battery_lt d pnf ss length fuel offset st st' h h1 h2

/-- Witness for C10 at the concrete buffer `bufC1`. -/
theorem battery_state_range_witness :
    stC1.t1_battery < 8 ∧ stC1.t2_battery < 8 :=
  battery_state_range.2.1 bufC1 1 32 384 385 0 (initState petrelParams bufC1)
    stC1 (by rfl) (by decide) (by decide)

/-- Claim C4: the sample interval defaults to 10 seconds; under PNF
with log version at least 9 it is the 16-bit big-endian millisecond
value at `opening[5] + 23`, rejected with a data-format error unless it
is a multiple of 1000, and otherwise divided by 1000. -/
theorem sample_interval_spec (d : List Nat) (L : Layout) :
    (¬(L.pnf = 1 ∧ 9 ≤ L.logversion) → sampleInterval d L = .ok 10) ∧
    ((L.pnf = 1 ∧ 9 ≤ L.logversion) →
      (array_uint16_be d (L.opening.getD 5 0 + 23) % 1000 ≠ 0 →
        sampleInterval d L = .error Status.DATAFORMAT) ∧
      (array_uint16_be d (L.opening.getD 5 0 + 23) % 1000 = 0 →
        sampleInterval d L = .ok (array_uint16_be d (L.opening.getD 5 0 + 23) / 1000))) := by
  constructor
  · intro h
    unfold sampleInterval
    rw [if_neg h]
  · intro h
    constructor
    · intro hmod
      unfold sampleInterval
      rw [if_pos h]
      dsimp only
      rw [if_pos hmod]
    · intro hmod
      unfold sampleInterval
      rw [if_pos h]
      dsimp only
      rw [if_neg (by simpa using hmod)]

/-- Witness for C4: 2000 ms yields a 2-second interval, 1500 ms fails
with a data-format error. -/
theorem sample_interval_spec_witness :
    sampleInterval dMs2000 LIntervalW = .ok 2 ∧
      sampleInterval dMs1500 LIntervalW = .error Status.DATAFORMAT := by
  constructor
  · have h := ((sample_interval_spec dMs2000 LIntervalW).2 (by decide)).2 (by decide)
    exact h.trans (by rfl)
  · exact ((sample_interval_spec dMs1500 LIntervalW).2 (by decide)).1 (by decide)

/-- Claim C5: for every byte, a negative signed-char interpretation is
folded by `+102` and clamped to 0 when the sum is positive; a negative
raw byte never decodes to a positive temperature; raw `0xFF` decodes to
0. -/
theorem temperature_folding :
    (∀ b, b < 256 →
      (signedByte b < 0 →
        sampleTemperature b =
          (if 0 < signedByte b + 102 then 0 else signedByte b + 102)) ∧
      (signedByte b < 0 → sampleTemperature b ≤ 0)) ∧
    sampleTemperature 0xFF = 0 := by
  constructor
  · decide
  · decide

/-- Witness for C5 at raw byte `0xFF` (signed −1). -/
theorem temperature_folding_witness :
    sampleTemperature 255 = (if (0 : Int) < -1 + 102 then 0 else -1 + 102) ∧
      sampleTemperature 255 ≤ 0 := by
  have h := temperature_folding.1 255 (by decide)
  refine ⟨(h.1 (by decide)).trans ?_, h.2 (by decide)⟩
  decide

/-- Counterexample for C6: for bitmask 0 no descriptive string is
produced at all — `add_battery_info` never reaches the string table for
state 0, so the claimed empty string is not published. -/
theorem battery_info_zero_counterexample :
    ¬ add_battery_info 0 = some "" := by decide

/-- Claim C6 (amended): bitmask 0 produces no string; 1 produces
"normal"; 4 and 5 produce "warning"; every bitmask with the critical
bit set (2, 3, 6, 7) produces "critical". -/
theorem battery_info_table :
    add_battery_info 0 = none ∧
    add_battery_info 1 = some "normal" ∧
    add_battery_info 2 = some "critical" ∧
    add_battery_info 3 = some "critical" ∧
    add_battery_info 4 = some "warning" ∧
    add_battery_info 5 = some "warning" ∧
    add_battery_info 6 = some "critical" ∧
    add_battery_info 7 = some "critical" := by
  exact ⟨rfl, rfl, rfl, rfl, rfl, rfl, rfl, rfl⟩

/-- Claim C9: once the cache pass succeeds, a null value pointer makes
the field accessor succeed for every kind and index, and the
unsupported-field error can only arise with a non-null value pointer. -/
theorem get_field_null_value (p : Params) (d : List Nat) (L : Layout)
    (h : cachePass p d = .ok L) :
    (∀ type flags,
      shearwater_predator_parser_get_field p d type flags false = Status.SUCCESS) ∧
    (∀ type flags v,
      shearwater_predator_parser_get_field p d type flags v = Status.UNSUPPORTED →
        v = true) := by
  constructor
  · intro type flags
    unfold shearwater_predator_parser_get_field
    rw [h]
    rfl
  · intro type flags v hv
    cases v
    · unfold shearwater_predator_parser_get_field at hv
      rw [h] at hv
      exact Status.noConfusion hv
    · rfl

/-- Witness for C9 at the concrete buffer `bufC1`, with an unknown
field kind and an out-of-range string index. -/
theorem get_field_null_value_witness :
    shearwater_predator_parser_get_field petrelParams bufC1
        (FieldType.OTHER 99) 40 false = Status.SUCCESS ∧
      shearwater_predator_parser_get_field petrelParams bufC1
        FieldType.STRING 40 false = Status.SUCCESS :=
  ⟨(get_field_null_value petrelParams bufC1 LC1 (by rfl)).1 (FieldType.OTHER 99) 40,
    (get_field_null_value petrelParams bufC1 LC1 (by rfl)).1 FieldType.STRING 40⟩

theorem mkLayout_gasmixes (p : Params) (d : List Nat) (st : CacheSweep) :
    (mkLayout p d st).gasmixes = st.gasmixes := rfl

theorem mkLayout_assignments (p : Params) (d : List Nat) (st : CacheSweep) :
    (mkLayout p d st).assignments = st.assignments := rfl

theorem mkLayout_mode (p : Params) (d : List Nat) (st : CacheSweep) :
    (mkLayout p d st).mode = st.mode := rfl

theorem mkLayout_opening (p : Params) (d : List Nat) (st : CacheSweep) :
    (mkLayout p d st).opening = st.opening := rfl

theorem mkLayout_closing (p : Params) (d : List Nat) (st : CacheSweep) :
    (mkLayout p d st).closing = st.closing := rfl

theorem mkLayout_pnf (p : Params) (d : List Nat) (st : CacheSweep) :
    (mkLayout p d st).pnf = pnfOf p d := rfl

theorem mkLayout_headersize (p : Params) (d : List Nat) (st : CacheSweep) :
    (mkLayout p d st).headersize = headersizeOf p d := rfl

theorem mkLayout_footersize (p : Params) (d : List Nat) (st : CacheSweep) :
    (mkLayout p d st).footersize = footersizeOf p d := rfl

/-- Inversion of a successful cache pass: the record sweep succeeded
from the initial state, the required-record check passed, and the
published layout is assembled from the final sweep state. -/
theorem cachePass_ok_inversion {p : Params} {d : List Nat} {L : Layout}
    (h : cachePass p d = .ok L) :
    ∃ st, cacheSweep d (pnfOf p d) p.samplesize (d.length - footersizeOf p d)
        (d.length + 1) (headersizeOf p d) (initState p d) = some st ∧
      requiredMissing st = false ∧ L = mkLayout p d st := by
  unfold cachePass at h
  split at h
  · exact Except.noConfusion h
  · split at h
    · exact Except.noConfusion h
    · split at h
      · exact Except.noConfusion h
      · split at h
        · exact Except.noConfusion h
        · rename_i st hsw hr
          exact ⟨st, hsw, by simpa using hr, (Except.ok.inj h).symm⟩

theorem gasStep_facts {mixes : List (Nat × Nat)} {asg : List ((Nat × Nat) × Nat)}
    {o2p hep o2 he : Nat} {g : List (Nat × Nat) × List ((Nat × Nat) × Nat) × Nat × Nat}
    (h : gasStep mixes asg o2p hep o2 he = some g) :
    TableExtends mixes g.1 ∧ TableExtends asg g.2.1 ∧
    (mixes.Nodup → g.1.Nodup) ∧
    (mixes.length ≤ NGASMIXES → g.1.length ≤ NGASMIXES) := by
  unfold gasStep at h
  split at h
  · split at h
    · split at h
      · exact Option.noConfusion h
      · rename_i hle hcap
        cases h
        refine ⟨tableExtends_append _ _, tableExtends_append _ _, ?_, ?_⟩
        · intro hnd
          have hmem : (o2, he) ∉ mixes := by
            intro hm
            have := (find_gasmix_lt_iff mixes o2 he).mpr hm
            omega
          rw [List.nodup_append]
          exact ⟨hnd, List.nodup_singleton _, fun a ha hb => by
            simp only [List.mem_singleton] at hb
            exact hmem (hb ▸ ha)⟩
        · intro hlen
          have := find_gasmix_le mixes o2 he
          simp only [List.length_append, List.length_singleton]
          omega
    · cases h
      exact ⟨tableExtends_refl _, tableExtends_append _ _, fun hnd => hnd, fun hl => hl⟩
  · cases h
    exact ⟨tableExtends_refl _, tableExtends_refl _, fun hnd => hnd, fun hl => hl⟩

theorem cacheStep_gas {d : List Nat} {pnf ss offset : Nat} {st st2 : CacheSweep}
    (h : cacheStep d pnf ss offset st = some st2) :
    TableExtends st.gasmixes st2.gasmixes ∧
    TableExtends st.assignments st2.assignments ∧
    (st.gasmixes.Nodup → st2.gasmixes.Nodup) ∧
    (st.gasmixes.length ≤ NGASMIXES → st2.gasmixes.length ≤ NGASMIXES) := by
  unfold cacheStep at h
  split at h
  · cases h; exact ⟨tableExtends_refl _, tableExtends_refl _, id, id⟩
  · split at h
    · obtain ⟨g, hg, hst⟩ := Option.map_eq_some'.mp h
      subst hst
      exact gasStep_facts hg
    · split at h
      · cases h; exact ⟨tableExtends_refl _, tableExtends_refl _, id, id⟩
      · split at h
        · cases h; exact ⟨tableExtends_refl _, tableExtends_refl _, id, id⟩
        · split at h
          · cases h; exact ⟨tableExtends_refl _, tableExtends_refl _, id, id⟩
          · split at h
            · cases h; exact ⟨tableExtends_refl _, tableExtends_refl _, id, id⟩
            · cases h; exact ⟨tableExtends_refl _, tableExtends_refl _, id, id⟩

theorem cacheSweep_gas (d : List Nat) (pnf ss length : Nat) :
    ∀ fuel offset st st',
      cacheSweep d pnf ss length fuel offset st = some st' →
      TableExtends st.gasmixes st'.gasmixes ∧
      TableExtends st.assignments st'.assignments ∧
      (st.gasmixes.Nodup → st'.gasmixes.Nodup) ∧
      (st.gasmixes.length ≤ NGASMIXES → st'.gasmixes.length ≤ NGASMIXES) := by
  intro fuel
  induction fuel with
  | zero =>
      intro offset st st' h
      exact (Option.some.inj h) ▸ ⟨tableExtends_refl _, tableExtends_refl _, id, id⟩
  | succ fuel ih =>
      intro offset st st' h
      simp only [cacheSweep] at h
      split at h
      · cases hc : cacheStep d pnf ss offset st with
        | none => rw [hc] at h; exact Option.noConfusion h
        | some st2 =>
            rw [hc] at h
            obtain ⟨he1, he2, hn, hl⟩ := cacheStep_gas hc
            obtain ⟨he1', he2', hn', hl'⟩ := ih (offset + ss) st2 st' h
            exact ⟨tableExtends_trans he1 he1', tableExtends_trans he2 he2',
              fun hnd => hn' (hn hnd), fun hle => hl' (hl hle)⟩
      · exact (Option.some.inj h) ▸ ⟨tableExtends_refl _, tableExtends_refl _, id, id⟩

/-- Claim C3: a successful cache pass registers at most `NGASMIXES`
(ten) pairwise-distinct gas pairs; a dive-sample record carrying a gas
change to an unregistered pair while the table is full makes the sweep
step fail (`DC_STATUS_NOMEMORY`), and a failing sweep makes the whole
cache pass return the resource error, publishing no layout. -/
theorem gasmix_capacity :
    (∀ p d L, cachePass p d = .ok L →
      L.gasmixes.length ≤ NGASMIXES ∧ L.gasmixes.Nodup) ∧
    (∀ d pnf ss offset st, NGASMIXES ≤ st.gasmixes.length →
      array_isequal d offset ss 0x00 = false →
      recordType d pnf offset = LOG_RECORD_DIVE_SAMPLE →
      (d.getD (offset + 7 + pnf) 0 ≠ st.o2_previous ∨
        d.getD (offset + 8 + pnf) 0 ≠ st.he_previous) →
      (d.getD (offset + 7 + pnf) 0, d.getD (offset + 8 + pnf) 0) ∉ st.gasmixes →
      cacheStep d pnf ss offset st = none) ∧
    (∀ p d, ¬ d.length < 2 →
      ¬ (pnfOf p d = 0 ∧ d.length < headersizeOf p d + footersizeOf p d) →
      cacheSweep d (pnfOf p d) p.samplesize (d.length - footersizeOf p d)
        (d.length + 1) (headersizeOf p d) (initState p d) = none →
      cachePass p d = .error Status.NOMEMORY) := by
  refine ⟨?_, ?_, ?_⟩
  · intro p d L h
    obtain ⟨st, hs, _, rfl⟩ := cachePass_ok_inversion h
    obtain ⟨_, _, hn, hl⟩ := cacheSweep_gas d (pnfOf p d) p.samplesize
      (d.length - footersizeOf p d) (d.length + 1) (headersizeOf p d)
      (initState p d) st hs
    rw [mkLayout_gasmixes]
    exact ⟨hl (by simp [initState]), hn (by simp [initState])⟩
  · intro d pnf ss offset st hfull hz ht hchg hmem
    have hfind : shearwater_predator_find_gasmix st.gasmixes
        (d.getD (offset + 7 + pnf) 0) (d.getD (offset + 8 + pnf) 0) =
        st.gasmixes.length := by
      have hle := find_gasmix_le st.gasmixes
        (d.getD (offset + 7 + pnf) 0) (d.getD (offset + 8 + pnf) 0)
      have hnlt := (find_gasmix_lt_iff st.gasmixes
        (d.getD (offset + 7 + pnf) 0) (d.getD (offset + 8 + pnf) 0)).not.mpr hmem
      omega
    unfold cacheStep
    rw [if_neg (by simp [hz]), if_pos ht]
    unfold gasStep
    rw [if_pos hchg, hfind, if_pos (Nat.le_refl _), if_pos hfull]
    rfl
  · intro p d h1 h2 hs
    unfold cachePass
    rw [if_neg h1, if_neg h2, hs]

/-- Witness for C3: the successful pass on `bufC1` keeps at most ten
mixes; on `bufC3` the record at offset 320 carries the eleventh
distinct pair and the sweep step fails, so the cache pass returns the
resource-exhausted error. -/
theorem gasmix_capacity_witness :
    LC1.gasmixes.length ≤ NGASMIXES ∧
    cacheStep bufC3 1 32 320 stFull = none ∧
    cachePass petrelParams bufC3 = .error Status.NOMEMORY := by
  refine ⟨(gasmix_capacity.1 petrelParams bufC1 LC1 (by rfl)).1, ?_, ?_⟩
  · exact gasmix_capacity.2.1 bufC3 1 32 320 stFull (by decide) (by decide)
      (by decide) (by decide) (by decide)
  · exact gasmix_capacity.2.2 petrelParams bufC3 (by decide) (by decide) (by rfl)

theorem getD_set (l : List Nat) (j v i : Nat) :
    (l.set j v).getD i 0 = if i = j ∧ j < l.length then v else l.getD i 0 := by
  induction l generalizing i j with
  | nil => simp
  | cons a t ih =>
      cases j with
      | zero =>
          cases i with
          | zero => simp
          | succ i => simp
      | succ j =>
          cases i with
          | zero => simp
          | succ i =>
              simp only [List.set_cons_succ, List.getD_cons_succ, ih,
                List.length_cons]
              by_cases hij : i = j ∧ j < t.length
              · rw [if_pos hij, if_pos (by omega)]
              · rw [if_neg hij, if_neg (by omega)]

theorem cacheStep_of_empty {d : List Nat} {pnf ss offset : Nat} (st : CacheSweep)
    (hz : array_isequal d offset ss 0x00 = true) :
    cacheStep d pnf ss offset st = some st := by
  unfold cacheStep
  rw [if_pos hz]

theorem cacheStep_dive_eq {d : List Nat} {pnf ss offset : Nat} (st : CacheSweep)
    (hz : array_isequal d offset ss 0x00 = false)
    (ht : recordType d pnf offset = LOG_RECORD_DIVE_SAMPLE) :
    cacheStep d pnf ss offset st =
      (gasStep st.gasmixes st.assignments st.o2_previous st.he_previous
          (d.getD (offset + 7 + pnf) 0) (d.getD (offset + 8 + pnf) 0)).map
        (diveUpdate d pnf offset st) := by
  unfold cacheStep
  rw [if_neg (by simp [hz]), if_pos ht]

/-- On a non-empty record, the sweep step changes `opening`/`closing`
exactly at the slot of the record's class (classes 0..6; a class-7
record touches no tracked slot), and preserves the slot-array
lengths. -/
theorem cacheStep_openClose {d : List Nat} {pnf ss offset : Nat}
    {st st2 : CacheSweep} (i : Nat) (hi : i < NRECORDS)
    (hol : st.opening.length = NRECORDS) (hcl : st.closing.length = NRECORDS)
    (hz : array_isequal d offset ss 0x00 = false)
    (h : cacheStep d pnf ss offset st = some st2) :
    st2.opening.getD i 0 =
      (if recordType d pnf offset = LOG_RECORD_OPENING_0 + i then offset
       else st.opening.getD i 0) ∧
    st2.closing.getD i 0 =
      (if recordType d pnf offset = LOG_RECORD_CLOSING_0 + i then offset
       else st.closing.getD i 0) ∧
    st2.opening.length = NRECORDS ∧ st2.closing.length = NRECORDS := by
  unfold cacheStep at h
  rw [if_neg (by simp [hz])] at h
  unfold LOG_RECORD_DIVE_SAMPLE LOG_RECORD_FREEDIVE_SAMPLE LOG_RECORD_OPENING_0
    LOG_RECORD_OPENING_7 LOG_RECORD_CLOSING_0 LOG_RECORD_CLOSING_7
    LOG_RECORD_FINAL at *
  unfold NRECORDS at *
  split at h
  · obtain ⟨g, hg, hst⟩ := Option.map_eq_some'.mp h
    subst hst
    rename_i ht
    rw [ht]
    refine ⟨?_, ?_, hol, hcl⟩
    · rw [if_neg (by omega)]; rfl
    · rw [if_neg (by omega)]; rfl
  · split at h
    · cases h
      rename_i ht
      rw [ht]
      exact ⟨by rw [if_neg (by omega)], by rw [if_neg (by omega)], hol, hcl⟩
    · split at h
      · cases h
        rename_i hrange
        refine ⟨?_, ?_, by simpa using hol, hcl⟩
        · show (st.opening.set (recordType d pnf offset - 0x10) offset).getD i 0 = _
          rw [getD_set, hol]
          by_cases he : recordType d pnf offset = 0x10 + i
          · rw [if_pos (by omega), if_pos he]
          · rw [if_neg (by omega), if_neg he]
        · rw [if_neg (by omega)]
      · split at h
        · cases h
          rename_i hrange2 hrange
          refine ⟨?_, ?_, hol, by simpa using hcl⟩
          · rw [if_neg (by omega)]
          · show (st.closing.set (recordType d pnf offset - 0x20) offset).getD i 0 = _
            rw [getD_set, hcl]
            by_cases he : recordType d pnf offset = 0x20 + i
            · rw [if_pos (by omega), if_pos he]
            · rw [if_neg (by omega), if_neg he]
        · split at h
          · cases h
            rename_i ht
            rw [ht]
            exact ⟨by rw [if_neg (by omega)], by rw [if_neg (by omega)], hol, hcl⟩
          · cases h
            rename_i h1 h2 h3 h4 h5
            exact ⟨by rw [if_neg (by omega)], by rw [if_neg (by omega)], hol, hcl⟩

/-- On a non-empty record, the sweep step updates the dive mode as the
record's class dictates. -/
theorem cacheStep_mode_step {d : List Nat} {pnf ss offset : Nat}
    {st st2 : CacheSweep}
    (hz : array_isequal d offset ss 0x00 = false)
    (h : cacheStep d pnf ss offset st = some st2) :
    st2.mode =
      (if recordType d pnf offset = LOG_RECORD_DIVE_SAMPLE then
        (if (d.getD (offset + 11 + pnf) 0) &&& OC = 0 then DiveMode.CCR else st.mode)
      else if recordType d pnf offset = LOG_RECORD_FREEDIVE_SAMPLE then
        DiveMode.FREEDIVE
      else st.mode) := by
  unfold cacheStep at h
  rw [if_neg (by simp [hz])] at h
  split at h
  · rename_i ht
    obtain ⟨g, hg, hst⟩ := Option.map_eq_some'.mp h
    subst hst
    rw [if_pos ht]
    rfl
  · rename_i ht
    rw [if_neg ht]
    split at h
    · rename_i ht2
      cases h
      rw [if_pos ht2]
    · rename_i ht2
      rw [if_neg ht2]
      split at h
      · cases h; rfl
      · split at h
        · cases h; rfl
        · split at h
          · cases h; rfl
          · cases h; rfl

theorem cacheSweep_lastClass (d : List Nat) (pnf ss length : Nat) :
    ∀ fuel offset st st',
      st.opening.length = NRECORDS → st.closing.length = NRECORDS →
      cacheSweep d pnf ss length fuel offset st = some st' →
      ∀ i, i < NRECORDS →
        st'.opening.getD i 0 =
          lastClassOffset (recordsIn d pnf ss length fuel offset)
            (LOG_RECORD_OPENING_0 + i) (st.opening.getD i 0) ∧
        st'.closing.getD i 0 =
          lastClassOffset (recordsIn d pnf ss length fuel offset)
            (LOG_RECORD_CLOSING_0 + i) (st.closing.getD i 0) := by
  intro fuel
  induction fuel with
  | zero =>
      intro offset st st' _ _ h i hi
      cases Option.some.inj h
      simp [recordsIn, lastClassOffset]
  | succ fuel ih =>
      intro offset st st' hol hcl h i hi
      simp only [cacheSweep, recordsIn] at h ⊢
      split at h
      · rename_i hguard
        rw [if_pos hguard]
        cases hc : cacheStep d pnf ss offset st with
        | none => rw [hc] at h; exact Option.noConfusion h
        | some st2 =>
            rw [hc] at h
            by_cases hz : array_isequal d offset ss 0x00 = true
            · rw [if_pos hz]
              have hst2 : st2 = st := by
                have := (cacheStep_of_empty st hz).symm.trans hc
                exact (Option.some.inj this).symm
              rw [hst2] at h
              exact ih (offset + ss) st st' hol hcl h i hi
            · rw [if_neg hz]
              have hz2 : array_isequal d offset ss 0x00 = false := by
                simpa using hz
              obtain ⟨ho, hcg, hol2, hcl2⟩ := cacheStep_openClose i hi hol hcl hz2 hc
              have := ih (offset + ss) st2 st' hol2 hcl2 h i hi
              simp only [lastClassOffset]
              rw [this.1, this.2, ho, hcg]
              exact ⟨rfl, rfl⟩
      · rename_i hguard
        rw [if_neg hguard]
        cases Option.some.inj h
        simp [lastClassOffset]

theorem cacheSweep_modeFold (d : List Nat) (pnf ss length : Nat) :
    ∀ fuel offset st st',
      cacheSweep d pnf ss length fuel offset st = some st' →
      st'.mode = modeFold d pnf (recordsIn d pnf ss length fuel offset) st.mode := by
  intro fuel
  induction fuel with
  | zero =>
      intro offset st st' h
      cases Option.some.inj h
      simp [recordsIn, modeFold]
  | succ fuel ih =>
      intro offset st st' h
      simp only [cacheSweep, recordsIn] at h ⊢
      split at h
      · rename_i hguard
        rw [if_pos hguard]
        cases hc : cacheStep d pnf ss offset st with
        | none => rw [hc] at h; exact Option.noConfusion h
        | some st2 =>
            rw [hc] at h
            by_cases hz : array_isequal d offset ss 0x00 = true
            · rw [if_pos hz]
              have hst2 : st2 = st := by
                have := (cacheStep_of_empty st hz).symm.trans hc
                exact (Option.some.inj this).symm
              rw [hst2] at h
              exact ih (offset + ss) st st' h
            · rw [if_neg hz]
              have hz2 : array_isequal d offset ss 0x00 = false := by
                simpa using hz
              have hm := cacheStep_mode_step hz2 hc
              have := ih (offset + ss) st2 st' h
              simp only [modeFold]
              rw [this, hm]
      · rename_i hguard
        rw [if_neg hguard]
        cases Option.some.inj h
        simp [modeFold]

theorem initState_opening_length (p : Params) (d : List Nat) :
    (initState p d).opening.length = NRECORDS := by
  unfold initState
  dsimp only
  split <;> simp

theorem initState_closing_length (p : Params) (d : List Nat) :
    (initState p d).closing.length = NRECORDS := by
  unfold initState
  dsimp only
  split <;> simp

theorem initState_opening_getD (p : Params) (d : List Nat) (i : Nat)
    (hpnf : pnfOf p d = 1) (hi : i < NRECORDS) :
    (initState p d).opening.getD i 0 = UNDEFINED := by
  unfold initState
  dsimp only
  rw [if_pos hpnf]
  rw [List.getD_eq_getElem?_getD, List.getElem?_replicate]
  rw [if_pos (by simpa [NRECORDS] using hi)]
  rfl

theorem initState_closing_getD (p : Params) (d : List Nat) (i : Nat)
    (hpnf : pnfOf p d = 1) (hi : i < NRECORDS) :
    (initState p d).closing.getD i 0 = UNDEFINED := by
  unfold initState
  dsimp only
  rw [if_pos hpnf]
  rw [List.getD_eq_getElem?_getD, List.getElem?_replicate]
  rw [if_pos (by simpa [NRECORDS] using hi)]
  rfl

/-- Counterexample for C7: on `bufC7` the record at offset 0 — the
first record of the sweep, which starts at offset 0 since the header is
empty under PNF — is a non-empty opening-class-0 record, yet the cached
`opening[0]` is 160, the offset of the later duplicate: the code stores
the offset of the last record of a class, not the first. -/
theorem opening_first_sight_counterexample :
    (cachePass petrelParams bufC7).toOption.map (fun L => L.opening.getD 0 0) =
      some 160 ∧
    bufC7.getD 0 0 = LOG_RECORD_OPENING_0 ∧
    array_isequal bufC7 0 32 0x00 = false ∧
    headersizeOf petrelParams bufC7 = 0 := by
  refine ⟨by rfl, by rfl, by rfl, by rfl⟩

/-- Claim C7 (amended): during the PNF discovery sweep, the offset
stored for each opening/closing class 0..6 is the offset of the LAST
non-empty record of that class in the sweep (each occurrence
overwrites), `UNDEFINED` when the class never occurs. -/
theorem opening_last_sight (p : Params) (d : List Nat) (L : Layout)
    (h : cachePass p d = .ok L) (hpnf : pnfOf p d = 1) :
    ∀ i, i < NRECORDS →
      L.opening.getD i 0 =
        lastClassOffset (recordsIn d (pnfOf p d) p.samplesize
            (d.length - footersizeOf p d) (d.length + 1) (headersizeOf p d))
          (LOG_RECORD_OPENING_0 + i) UNDEFINED ∧
      L.closing.getD i 0 =
        lastClassOffset (recordsIn d (pnfOf p d) p.samplesize
            (d.length - footersizeOf p d) (d.length + 1) (headersizeOf p d))
          (LOG_RECORD_CLOSING_0 + i) UNDEFINED := by
  intro i hi
  obtain ⟨st, hsw, _, rfl⟩ := cachePass_ok_inversion h
  rw [mkLayout_opening, mkLayout_closing]
  have := cacheSweep_lastClass d (pnfOf p d) p.samplesize
    (d.length - footersizeOf p d) (d.length + 1) (headersizeOf p d)
    (initState p d) st (initState_opening_length p d) (initState_closing_length p d)
    hsw i hi
  rw [initState_opening_getD p d i hpnf hi, initState_closing_getD p d i hpnf hi] at this
  exact this

/-- Witness for C7 (amended) at `bufC7`: the stored `opening[0]` equals
the last-occurrence offset 160. -/
theorem opening_last_sight_witness :
    LC7.opening.getD 0 0 =
      lastClassOffset (recordsIn bufC7 (pnfOf petrelParams bufC7) 32
          (bufC7.length - footersizeOf petrelParams bufC7) (bufC7.length + 1)
          (headersizeOf petrelParams bufC7))
        (LOG_RECORD_OPENING_0 + 0) UNDEFINED ∧
    LC7.opening.getD 0 0 = 160 := by
  refine ⟨?_, by rfl⟩
  exact (opening_last_sight petrelParams bufC7 LC7 (by rfl) (by rfl) 0 (by decide)).1

/-- Counterexample for C8: `bufC8` contains a non-empty freedive-shaped
record at offset 160, inside the sweep region and on a record boundary,
yet the cached dive mode is closed-circuit: the later dive-sample
record with the `OC` status bit clear overwrites the freedive mode. -/
theorem freedive_override_counterexample :
    (cachePass petrelParams bufC8).toOption.map (fun L => L.mode) =
      some DiveMode.CCR ∧
    bufC8.getD 160 0 = LOG_RECORD_FREEDIVE_SAMPLE ∧
    array_isequal bufC8 160 32 0x00 = false ∧
    headersizeOf petrelParams bufC8 = 0 ∧
    160 + 32 ≤ bufC8.length - footersizeOf petrelParams bufC8 := by
  refine ⟨by rfl, by rfl, by rfl, by rfl, by decide⟩

/-- Claim C8 (amended): the cached dive mode is the left-to-right fold
of the record sweep starting from open-circuit — a dive-sample record
with the `OC` flag clear sets closed-circuit, a freedive record sets
freedive, and the last mode-setting record wins (freedive is not
sticky). -/
theorem dive_mode_fold (p : Params) (d : List Nat) (L : Layout)
    (h : cachePass p d = .ok L) :
    L.mode = modeFold d (pnfOf p d)
      (recordsIn d (pnfOf p d) p.samplesize (d.length - footersizeOf p d)
        (d.length + 1) (headersizeOf p d))
      DiveMode.OC := by
  obtain ⟨st, hsw, _, rfl⟩ := cachePass_ok_inversion h
  rw [mkLayout_mode]
  exact cacheSweep_modeFold d (pnfOf p d) p.samplesize
    (d.length - footersizeOf p d) (d.length + 1) (headersizeOf p d)
    (initState p d) st hsw

/-- Witness for C8 (amended) at `bufC8`: the fold yields closed-circuit
and so does the cached mode. -/
theorem dive_mode_fold_witness :
    LC8.mode = modeFold bufC8 (pnfOf petrelParams bufC8)
      (recordsIn bufC8 (pnfOf petrelParams bufC8) 32
        (bufC8.length - footersizeOf petrelParams bufC8) (bufC8.length + 1)
        (headersizeOf petrelParams bufC8))
      DiveMode.OC ∧
    LC8.mode = DiveMode.CCR := by
  refine ⟨?_, by rfl⟩
  exact dive_mode_fold petrelParams bufC8 LC8 (by rfl)

/-- Records that are not non-empty dive samples leave the gas state of
the cache sweep untouched. -/
theorem cacheStep_gasfields {d : List Nat} {pnf ss offset : Nat} {st st2 : CacheSweep}
    (h : cacheStep d pnf ss offset st = some st2)
    (hnd : array_isequal d offset ss 0x00 = true ∨
      recordType d pnf offset ≠ LOG_RECORD_DIVE_SAMPLE) :
    st2.gasmixes = st.gasmixes ∧ st2.assignments = st.assignments ∧
    st2.o2_previous = st.o2_previous ∧ st2.he_previous = st.he_previous := by
  unfold cacheStep at h
  split at h
  · cases h; exact ⟨rfl, rfl, rfl, rfl⟩
  · rename_i hz
    have ht : recordType d pnf offset ≠ LOG_RECORD_DIVE_SAMPLE := by
      rcases hnd with hz2 | ht
      · exact absurd hz2 hz
      · exact ht
    rw [if_neg ht] at h
    split at h
    · cases h; exact ⟨rfl, rfl, rfl, rfl⟩
    · split at h
      · cases h; exact ⟨rfl, rfl, rfl, rfl⟩
      · split at h
        · cases h; exact ⟨rfl, rfl, rfl, rfl⟩
        · split at h
          · cases h; exact ⟨rfl, rfl, rfl, rfl⟩
          · cases h; exact ⟨rfl, rfl, rfl, rfl⟩

/-- A gas-change step keeps every recorded assignment consistent with
the (possibly grown) table: the recorded index is the lookup result in
the new table, and it is in bounds. -/
theorem gasStep_asg {mixes : List (Nat × Nat)} {asg : List ((Nat × Nat) × Nat)}
    {o2p hep o2 he : Nat} {g : List (Nat × Nat) × List ((Nat × Nat) × Nat) × Nat × Nat}
    (h : gasStep mixes asg o2p hep o2 he = some g)
    (hinv : ∀ q ∈ asg, shearwater_predator_find_gasmix mixes q.1.1 q.1.2 = q.2 ∧
      q.2 < mixes.length) :
    ∀ q ∈ g.2.1, shearwater_predator_find_gasmix g.1 q.1.1 q.1.2 = q.2 ∧
      q.2 < g.1.length := by
  unfold gasStep at h
  split at h
  · split at h
    · split at h
      · exact Option.noConfusion h
      · rename_i hchg hle hcap
        cases Option.some.inj h
        intro q hq
        dsimp only at hq ⊢
        have hfind0 : shearwater_predator_find_gasmix mixes o2 he = mixes.length := by
          have := find_gasmix_le mixes o2 he
          omega
        rcases List.mem_append.mp hq with hql | hqr
        · obtain ⟨h1, h2⟩ := hinv q hql
          refine ⟨?_, ?_⟩
          · rw [find_gasmix_extends_of_lt (tableExtends_append mixes [(o2, he)])
              (by omega), h1]
          · rw [List.length_append]
            omega
        · rw [List.mem_singleton] at hqr
          subst hqr
          dsimp only
          refine ⟨?_, ?_⟩
          · rw [hfind0, find_gasmix_extends_insert (tableExtends_refl _) hfind0]
          · rw [hfind0, List.length_append]
            simp
    · rename_i hchg hle
      cases Option.some.inj h
      intro q hq
      dsimp only at hq ⊢
      rcases List.mem_append.mp hq with hql | hqr
      · exact hinv q hql
      · rw [List.mem_singleton] at hqr
        subst hqr
        dsimp only
        exact ⟨rfl, by omega⟩
  · cases Option.some.inj h
    intro q hq
    exact hinv q hq

theorem cacheStep_asg {d : List Nat} {pnf ss offset : Nat} {st st2 : CacheSweep}
    (h : cacheStep d pnf ss offset st = some st2)
    (hinv : ∀ q ∈ st.assignments,
      shearwater_predator_find_gasmix st.gasmixes q.1.1 q.1.2 = q.2 ∧
      q.2 < st.gasmixes.length) :
    ∀ q ∈ st2.assignments,
      shearwater_predator_find_gasmix st2.gasmixes q.1.1 q.1.2 = q.2 ∧
      q.2 < st2.gasmixes.length := by
  unfold cacheStep at h
  split at h
  · cases h; exact hinv
  · split at h
    · obtain ⟨g, hg, hst⟩ := Option.map_eq_some'.mp h
      subst hst
      exact gasStep_asg hg hinv
    · split at h
      · cases h; exact hinv
      · split at h
        · cases h; exact hinv
        · split at h
          · cases h; exact hinv
          · split at h
            · cases h; exact hinv
            · cases h; exact hinv

theorem cacheSweep_asg (d : List Nat) (pnf ss length : Nat) :
    ∀ fuel offset st st',
      cacheSweep d pnf ss length fuel offset st = some st' →
      (∀ q ∈ st.assignments,
        shearwater_predator_find_gasmix st.gasmixes q.1.1 q.1.2 = q.2 ∧
        q.2 < st.gasmixes.length) →
      ∀ q ∈ st'.assignments,
        shearwater_predator_find_gasmix st'.gasmixes q.1.1 q.1.2 = q.2 ∧
        q.2 < st'.gasmixes.length := by
  intro fuel
  induction fuel with
  | zero =>
      intro offset st st' h hinv
      cases Option.some.inj h
      exact hinv
  | succ fuel ih =>
      intro offset st st' h hinv
      simp only [cacheSweep] at h
      split at h
      · cases hc : cacheStep d pnf ss offset st with
        | none => rw [hc] at h; exact Option.noConfusion h
        | some st2 =>
            rw [hc] at h
            exact ih (offset + ss) st2 st' h (cacheStep_asg hc hinv)
      · cases Option.some.inj h
        exact hinv

/-- The replay sweep over the final gas table of a successful cache
sweep never fails, and resolves every gas change by looking the pair up
in that table. -/
theorem cacheSweep_replay_ok (d : List Nat) (pnf ss length : Nat) :
    ∀ fuel offset st st',
      cacheSweep d pnf ss length fuel offset st = some st' →
      replayGasSweep d pnf ss length st'.gasmixes fuel offset
          st.o2_previous st.he_previous
        = .ok ((replayPairs d pnf ss length fuel offset
            st.o2_previous st.he_previous).map
            (fun q => shearwater_predator_find_gasmix st'.gasmixes q.1 q.2)) := by
  intro fuel
  induction fuel with
  | zero => intro offset st st' h; rfl
  | succ fuel ih =>
      intro offset st st' h
      simp only [cacheSweep] at h
      simp only [replayGasSweep, replayPairs]
      by_cases hguard : offset + ss ≤ length
      case neg =>
        rw [if_neg hguard] at h
        rw [if_neg hguard, if_neg hguard]
        cases Option.some.inj h
        rfl
      case pos =>
        rw [if_pos hguard] at h
        rw [if_pos hguard, if_pos hguard]
        cases hc : cacheStep d pnf ss offset st with
        | none => rw [hc] at h; exact Option.noConfusion h
        | some st2 =>
            rw [hc] at h
            by_cases hc1 : pnf = 1 ∧ d.getD offset 0 = LOG_RECORD_FINAL ∧
                d.getD (offset + 1) 0 = 0xFD
            · rw [if_pos hc1, if_pos hc1]
              rfl
            · rw [if_neg hc1, if_neg hc1]
              by_cases hc2 : pnf = 1 ∧ d.getD offset 0 = LOG_RECORD_INFO_EVENT
              · rw [if_pos hc2, if_pos hc2]
                have ht : recordType d pnf offset ≠ LOG_RECORD_DIVE_SAMPLE := by
                  unfold recordType
                  rw [if_pos hc2.1, hc2.2]
                  decide
                have hfields := cacheStep_gasfields hc (Or.inr ht)
                have hih := ih (offset + ss) st2 st' h
                rw [hfields.2.2.1, hfields.2.2.2] at hih
                exact hih
              · rw [if_neg hc2, if_neg hc2]
                by_cases hc3 : pnf = 1 ∧ d.getD offset 0 ≠ LOG_RECORD_DIVE_SAMPLE
                · rw [if_pos hc3, if_pos hc3]
                  have ht : recordType d pnf offset ≠ LOG_RECORD_DIVE_SAMPLE := by
                    unfold recordType
                    rw [if_pos hc3.1]
                    exact hc3.2
                  have hfields := cacheStep_gasfields hc (Or.inr ht)
                  have hih := ih (offset + ss) st2 st' h
                  rw [hfields.2.2.1, hfields.2.2.2] at hih
                  exact hih
                · rw [if_neg hc3, if_neg hc3]
                  by_cases hc4 : array_isequal d offset ss 0x00 = true
                  · rw [if_pos hc4, if_pos hc4]
                    have hst2 : st2 = st := by
                      have := (cacheStep_of_empty st hc4).symm.trans hc
                      exact (Option.some.inj this).symm
                    rw [hst2] at h
                    exact ih (offset + ss) st st' h
                  · rw [if_neg hc4, if_neg hc4]
                    have hz2 : array_isequal d offset ss 0x00 = false := by
                      simpa using hc4
                    have ht : recordType d pnf offset = LOG_RECORD_DIVE_SAMPLE := by
                      unfold recordType
                      by_cases hpnf : pnf = 1
                      · rw [if_pos hpnf]
                        by_contra hne
                        exact hc3 ⟨hpnf, hne⟩
                      · rw [if_neg hpnf]
                    rw [cacheStep_dive_eq st hz2 ht] at hc
                    obtain ⟨g, hg, hst2⟩ := Option.map_eq_some'.mp hc
                    subst hst2
                    have e7 : offset + pnf + 7 = offset + 7 + pnf := by omega
                    have e8 : offset + pnf + 8 = offset + 8 + pnf := by omega
                    rw [e7, e8]
                    unfold gasStep at hg
                    by_cases hchg : d.getD (offset + 7 + pnf) 0 ≠ st.o2_previous ∨
                        d.getD (offset + 8 + pnf) 0 ≠ st.he_previous
                    · rw [if_pos hchg] at hg
                      rw [if_pos hchg, if_pos hchg]
                      by_cases hle : st.gasmixes.length ≤
                          shearwater_predator_find_gasmix st.gasmixes
                            (d.getD (offset + 7 + pnf) 0) (d.getD (offset + 8 + pnf) 0)
                      · rw [if_pos hle] at hg
                        by_cases hcap : NGASMIXES ≤
                            shearwater_predator_find_gasmix st.gasmixes
                              (d.getD (offset + 7 + pnf) 0) (d.getD (offset + 8 + pnf) 0)
                        · rw [if_pos hcap] at hg
                          exact Option.noConfusion hg
                        · rw [if_neg hcap] at hg
                          cases Option.some.inj hg
                          have hext2 := (cacheSweep_gas d pnf ss length fuel
                            (offset + ss) _ st' h).1
                          dsimp only [diveUpdate] at hext2
                          have hfind0 : shearwater_predator_find_gasmix st.gasmixes
                              (d.getD (offset + 7 + pnf) 0)
                              (d.getD (offset + 8 + pnf) 0) = st.gasmixes.length := by
                            have := find_gasmix_le st.gasmixes
                              (d.getD (offset + 7 + pnf) 0) (d.getD (offset + 8 + pnf) 0)
                            omega
                          have hfindT := find_gasmix_extends_insert hext2 hfind0
                          have hlenle := tableExtends_length hext2
                          rw [List.length_append] at hlenle
                          rw [hfindT, if_neg (by simp at hlenle; omega)]
                          have hih := ih (offset + ss) _ st' h
                          dsimp only [diveUpdate] at hih
                          rw [hih]
                          simp only [List.map_cons, hfindT]
                      · rw [if_neg hle] at hg
                        cases Option.some.inj hg
                        have hext2 := (cacheSweep_gas d pnf ss length fuel
                          (offset + ss) _ st' h).1
                        dsimp only [diveUpdate] at hext2
                        have hlt : shearwater_predator_find_gasmix st.gasmixes
                            (d.getD (offset + 7 + pnf) 0)
                            (d.getD (offset + 8 + pnf) 0) < st.gasmixes.length := by
                          omega
                        have hfindT := find_gasmix_extends_of_lt hext2 hlt
                        have hlenle := tableExtends_length hext2
                        rw [hfindT, if_neg (by omega)]
                        have hih := ih (offset + ss) _ st' h
                        dsimp only [diveUpdate] at hih
                        rw [hih]
                        simp only [List.map_cons, hfindT]
                    · rw [if_neg hchg] at hg
                      rw [if_neg hchg, if_neg hchg]
                      cases Option.some.inj hg
                      have hih := ih (offset + ss) _ st' h
                      dsimp only [diveUpdate] at hih
                      exact hih

/-- Every gas-change pair the replay sweep encounters was recorded,
with its final-table index, by the cache sweep's assignments. -/
theorem cacheSweep_replay_assigned (d : List Nat) (pnf ss length : Nat) :
    ∀ fuel offset st st',
      cacheSweep d pnf ss length fuel offset st = some st' →
      ∀ q ∈ replayPairs d pnf ss length fuel offset st.o2_previous st.he_previous,
        (q, shearwater_predator_find_gasmix st'.gasmixes q.1 q.2) ∈
          st'.assignments := by
  intro fuel
  induction fuel with
  | zero => intro offset st st' h q hq; simp [replayPairs] at hq
  | succ fuel ih =>
      intro offset st st' h q hq
      simp only [cacheSweep] at h
      simp only [replayPairs] at hq
      by_cases hguard : offset + ss ≤ length
      case neg =>
        rw [if_neg hguard] at hq
        simp at hq
      case pos =>
        rw [if_pos hguard] at h hq
        cases hc : cacheStep d pnf ss offset st with
        | none => rw [hc] at h; exact Option.noConfusion h
        | some st2 =>
            rw [hc] at h
            by_cases hc1 : pnf = 1 ∧ d.getD offset 0 = LOG_RECORD_FINAL ∧
                d.getD (offset + 1) 0 = 0xFD
            · rw [if_pos hc1] at hq
              simp at hq
            · rw [if_neg hc1] at hq
              by_cases hc2 : pnf = 1 ∧ d.getD offset 0 = LOG_RECORD_INFO_EVENT
              · rw [if_pos hc2] at hq
                have ht : recordType d pnf offset ≠ LOG_RECORD_DIVE_SAMPLE := by
                  unfold recordType
                  rw [if_pos hc2.1, hc2.2]
                  decide
                have hfields := cacheStep_gasfields hc (Or.inr ht)
                rw [← hfields.2.2.1, ← hfields.2.2.2] at hq
                exact ih (offset + ss) st2 st' h q hq
              · rw [if_neg hc2] at hq
                by_cases hc3 : pnf = 1 ∧ d.getD offset 0 ≠ LOG_RECORD_DIVE_SAMPLE
                · rw [if_pos hc3] at hq
                  have ht : recordType d pnf offset ≠ LOG_RECORD_DIVE_SAMPLE := by
                    unfold recordType
                    rw [if_pos hc3.1]
                    exact hc3.2
                  have hfields := cacheStep_gasfields hc (Or.inr ht)
                  rw [← hfields.2.2.1, ← hfields.2.2.2] at hq
                  exact ih (offset + ss) st2 st' h q hq
                · rw [if_neg hc3] at hq
                  by_cases hc4 : array_isequal d offset ss 0x00 = true
                  · rw [if_pos hc4] at hq
                    have hst2 : st2 = st := by
                      have := (cacheStep_of_empty st hc4).symm.trans hc
                      exact (Option.some.inj this).symm
                    rw [hst2] at h
                    exact ih (offset + ss) st st' h q hq
                  · rw [if_neg hc4] at hq
                    have hz2 : array_isequal d offset ss 0x00 = false := by
                      simpa using hc4
                    have ht : recordType d pnf offset = LOG_RECORD_DIVE_SAMPLE := by
                      unfold recordType
                      by_cases hpnf : pnf = 1
                      · rw [if_pos hpnf]
                        by_contra hne
                        exact hc3 ⟨hpnf, hne⟩
                      · rw [if_neg hpnf]
                    rw [cacheStep_dive_eq st hz2 ht] at hc
                    obtain ⟨g, hg, hst2⟩ := Option.map_eq_some'.mp hc
                    subst hst2
                    have e7 : offset + pnf + 7 = offset + 7 + pnf := by omega
                    have e8 : offset + pnf + 8 = offset + 8 + pnf := by omega
                    rw [e7, e8] at hq
                    unfold gasStep at hg
                    by_cases hchg : d.getD (offset + 7 + pnf) 0 ≠ st.o2_previous ∨
                        d.getD (offset + 8 + pnf) 0 ≠ st.he_previous
                    · rw [if_pos hchg] at hg
                      rw [if_pos hchg] at hq
                      by_cases hle : st.gasmixes.length ≤
                          shearwater_predator_find_gasmix st.gasmixes
                            (d.getD (offset + 7 + pnf) 0) (d.getD (offset + 8 + pnf) 0)
                      · rw [if_pos hle] at hg
                        by_cases hcap : NGASMIXES ≤
                            shearwater_predator_find_gasmix st.gasmixes
                              (d.getD (offset + 7 + pnf) 0) (d.getD (offset + 8 + pnf) 0)
                        · rw [if_pos hcap] at hg
                          exact Option.noConfusion hg
                        · rw [if_neg hcap] at hg
                          cases Option.some.inj hg
                          have hgas := cacheSweep_gas d pnf ss length fuel
                            (offset + ss) _ st' h
                          have hext2 := hgas.1
                          have hasgext := hgas.2.1
                          dsimp only [diveUpdate] at hext2 hasgext
                          have hfind0 : shearwater_predator_find_gasmix st.gasmixes
                              (d.getD (offset + 7 + pnf) 0)
                              (d.getD (offset + 8 + pnf) 0) = st.gasmixes.length := by
                            have := find_gasmix_le st.gasmixes
                              (d.getD (offset + 7 + pnf) 0) (d.getD (offset + 8 + pnf) 0)
                            omega
                          have hfindT := find_gasmix_extends_insert hext2 hfind0
                          rcases List.mem_cons.mp hq with hqh | hqtail
                          · subst hqh
                            dsimp only
                            rw [hfindT, ← hfind0]
                            exact tableExtends_mem hasgext (by simp)
                          · have hih := ih (offset + ss) _ st' h q
                            dsimp only [diveUpdate] at hih
                            exact hih hqtail
                      · rw [if_neg hle] at hg
                        cases Option.some.inj hg
                        have hgas := cacheSweep_gas d pnf ss length fuel
                          (offset + ss) _ st' h
                        have hext2 := hgas.1
                        have hasgext := hgas.2.1
                        dsimp only [diveUpdate] at hext2 hasgext
                        have hlt : shearwater_predator_find_gasmix st.gasmixes
                            (d.getD (offset + 7 + pnf) 0)
                            (d.getD (offset + 8 + pnf) 0) < st.gasmixes.length := by
                          omega
                        have hfindT := find_gasmix_extends_of_lt hext2 hlt
                        rcases List.mem_cons.mp hq with hqh | hqtail
                        · subst hqh
                          dsimp only
                          rw [hfindT]
                          exact tableExtends_mem hasgext (by simp)
                        · have hih := ih (offset + ss) _ st' h q
                          dsimp only [diveUpdate] at hih
                          exact hih hqtail
                    · rw [if_neg hchg] at hg
                      rw [if_neg hchg] at hq
                      cases Option.some.inj hg
                      have hih := ih (offset + ss) _ st' h q
                      dsimp only [diveUpdate] at hih
                      exact hih hq

/-- A gas change to a pair absent from the supplied table aborts the
replay sweep with the data-format error. -/
theorem replayGasSweep_abort (d : List Nat) (pnf ss length : Nat)
    (mixes : List (Nat × Nat)) :
    ∀ fuel offset o2p hep,
      (∃ q ∈ replayPairs d pnf ss length fuel offset o2p hep, q ∉ mixes) →
      replayGasSweep d pnf ss length mixes fuel offset o2p hep =
        .error Status.DATAFORMAT := by
  intro fuel
  induction fuel with
  | zero =>
      intro offset o2p hep hex
      obtain ⟨q, hq, _⟩ := hex
      simp [replayPairs] at hq
  | succ fuel ih =>
      intro offset o2p hep hex
      obtain ⟨q, hq, hqn⟩ := hex
      simp only [replayPairs] at hq
      simp only [replayGasSweep]
      by_cases hguard : offset + ss ≤ length
      case neg =>
        rw [if_neg hguard] at hq
        simp at hq
      case pos =>
        rw [if_pos hguard] at hq
        rw [if_pos hguard]
        by_cases hc1 : pnf = 1 ∧ d.getD offset 0 = LOG_RECORD_FINAL ∧
            d.getD (offset + 1) 0 = 0xFD
        · rw [if_pos hc1] at hq
          simp at hq
        · rw [if_neg hc1] at hq
          rw [if_neg hc1]
          by_cases hc2 : pnf = 1 ∧ d.getD offset 0 = LOG_RECORD_INFO_EVENT
          · rw [if_pos hc2] at hq
            rw [if_pos hc2]
            exact ih (offset + ss) o2p hep ⟨q, hq, hqn⟩
          · rw [if_neg hc2] at hq
            rw [if_neg hc2]
            by_cases hc3 : pnf = 1 ∧ d.getD offset 0 ≠ LOG_RECORD_DIVE_SAMPLE
            · rw [if_pos hc3] at hq
              rw [if_pos hc3]
              exact ih (offset + ss) o2p hep ⟨q, hq, hqn⟩
            · rw [if_neg hc3] at hq
              rw [if_neg hc3]
              by_cases hc4 : array_isequal d offset ss 0x00 = true
              · rw [if_pos hc4] at hq
                rw [if_pos hc4]
                exact ih (offset + ss) o2p hep ⟨q, hq, hqn⟩
              · rw [if_neg hc4] at hq
                rw [if_neg hc4]
                by_cases hchg : d.getD (offset + pnf + 7) 0 ≠ o2p ∨
                    d.getD (offset + pnf + 8) 0 ≠ hep
                · rw [if_pos hchg] at hq
                  rw [if_pos hchg]
                  by_cases hle : mixes.length ≤ shearwater_predator_find_gasmix mixes
                      (d.getD (offset + pnf + 7) 0) (d.getD (offset + pnf + 8) 0)
                  · rw [if_pos hle]
                  · rw [if_neg hle]
                    have hqtail : q ∈ replayPairs d pnf ss length fuel (offset + ss)
                        (d.getD (offset + pnf + 7) 0) (d.getD (offset + pnf + 8) 0) := by
                      rcases List.mem_cons.mp hq with hqh | hqtail
                      · exfalso
                        subst hqh
                        exact hqn ((find_gasmix_lt_iff mixes _ _).mp (by omega))
                      · exact hqtail
                    rw [ih (offset + ss) (d.getD (offset + pnf + 7) 0)
                      (d.getD (offset + pnf + 8) 0) ⟨q, hqtail, hqn⟩]
                · rw [if_neg hchg] at hq
                  rw [if_neg hchg]
                  exact ih (offset + ss) o2p hep ⟨q, hq, hqn⟩

/-- Claim C1: for every buffer accepted by the cache pass, the replay
pass's gas bookkeeping succeeds, resolving each gas-change pair to its
index in the cached table; that index is exactly the index the cache
pass assigned to the pair (recorded in `assignments`) and is in bounds;
and replaying against any table missing one of the encountered pairs
aborts with the data-format error. -/
theorem gasmix_index_refinement (p : Params) (d : List Nat) (L : Layout)
    (h : cachePass p d = .ok L) :
    replayGasSweep d L.pnf p.samplesize (d.length - L.footersize) L.gasmixes
        (d.length + 1) L.headersize 0 0
      = .ok ((replayPairs d L.pnf p.samplesize (d.length - L.footersize)
          (d.length + 1) L.headersize 0 0).map
          (fun q => shearwater_predator_find_gasmix L.gasmixes q.1 q.2)) ∧
    (∀ q ∈ replayPairs d L.pnf p.samplesize (d.length - L.footersize)
        (d.length + 1) L.headersize 0 0,
      (q, shearwater_predator_find_gasmix L.gasmixes q.1 q.2) ∈ L.assignments ∧
      shearwater_predator_find_gasmix L.gasmixes q.1 q.2 < L.gasmixes.length) ∧
    (∀ mixes, (∃ q ∈ replayPairs d L.pnf p.samplesize (d.length - L.footersize)
        (d.length + 1) L.headersize 0 0, q ∉ mixes) →
      replayGasSweep d L.pnf p.samplesize (d.length - L.footersize) mixes
        (d.length + 1) L.headersize 0 0 = .error Status.DATAFORMAT) := by
  obtain ⟨st, hsw, _, rfl⟩ := cachePass_ok_inversion h
  simp only [mkLayout_pnf, mkLayout_headersize, mkLayout_footersize,
    mkLayout_gasmixes, mkLayout_assignments]
  refine ⟨?_, ?_, ?_⟩
  · exact cacheSweep_replay_ok d (pnfOf p d) p.samplesize
      (d.length - footersizeOf p d) (d.length + 1) (headersizeOf p d)
      (initState p d) st hsw
  · intro q hq
    have hmem := cacheSweep_replay_assigned d (pnfOf p d) p.samplesize
      (d.length - footersizeOf p d) (d.length + 1) (headersizeOf p d)
      (initState p d) st hsw q hq
    have hinv := cacheSweep_asg d (pnfOf p d) p.samplesize
      (d.length - footersizeOf p d) (d.length + 1) (headersizeOf p d)
      (initState p d) st hsw (by intro q2 hq2; simp [initState] at hq2)
      _ hmem
    exact ⟨hmem, hinv.2⟩
  · intro mixes hex
    exact replayGasSweep_abort d (pnfOf p d) p.samplesize
      (d.length - footersizeOf p d) mixes (d.length + 1) (headersizeOf p d) 0 0 hex

/-- Witness for C1 at `bufC1`: the replay resolves exactly the indices
0 and 1 assigned during the cache pass, and dropping the second mix
from the table makes the replay abort with the data-format error. -/
theorem gasmix_index_refinement_witness :
    replayGasSweep bufC1 LC1.pnf 32 (bufC1.length - LC1.footersize) LC1.gasmixes
        (bufC1.length + 1) LC1.headersize 0 0 = .ok [0, 1] ∧
    replayGasSweep bufC1 LC1.pnf 32 (bufC1.length - LC1.footersize) [(21, 0)]
        (bufC1.length + 1) LC1.headersize 0 0 = .error Status.DATAFORMAT := by
  have h := gasmix_index_refinement petrelParams bufC1 LC1 (by rfl)
  constructor
  · exact h.1.trans (by rfl)
  · exact h.2.2 [(21, 0)] ⟨(32, 0), by decide, by decide⟩

/-- Claim C2 (code bug): on `bufC2` the cache pass succeeds in PNF mode
with log version 9, yet `opening[5]` is still the `UNDEFINED` sentinel
— the required-record check only covers classes 0..4 — so the replay
pass's sample-interval read performs `data + opening[5] + 23`, an
offset computation on the unchecked sentinel that lands far beyond the
buffer. -/
theorem opening5_sentinel_unchecked :
    (cachePass petrelParams bufC2).toOption.map
        (fun L => (L.pnf, L.logversion, L.opening.getD 5 0)) =
      some (1, 9, UNDEFINED) ∧
    bufC2.length ≤ UNDEFINED + 23 := by
  constructor
  · rfl
  · decide

end Shearwater
